import Mathlib

/-!
Shallow embedding of the chunked webcam recorder in `src/litter-mon.py`
(PyLitter repository) and proofs about it.

Modelling conventions:
* Wall-clock time is idealized as a tick counter (`Nat`); the steadily
  delivering source produces exactly one frame per tick, so `datetime.now()`
  inside the capture loop reads the current tick.
* Frames are finite pixel grids; the OpenCV drawing primitives used by the
  annotation block (external collaborators) are modelled as fixed
  deterministic functions of exactly the arguments the source passes them.
* Python floats become `Rat` where division matters (frame-rate calibration).
* Exceptions become explicit sum types / result fields.
-/

namespace LitterMon

/-- A pixel: BGR colour triple, as OpenCV frames hold. -/
abbrev Pix := Nat × Nat × Nat

/-- A frame: a grid of pixels, row major (`frame.shape[0]` = number of rows). -/
abbrev Frame := List (List Pix)

/-- Model of `cv2.getTextSize(text, FONT_HERSHEY_SIMPLEX, 0.7, 2)` (line 136):
an external deterministic rasterizer; returns ((text_width, text_height),
baseline) as a fixed function of the text alone. -/
def getTextSizeModel (text : String) : (Nat × Nat) × Nat :=
  ((12 * text.length, 16), 4)

/-- Model of the glyph coverage test inside `cv2.putText` (line 150): whether
the rendered text covers the pixel at offset (dx, dy) from the text origin.
Any fixed deterministic function of (text, dx, dy) models the external
renderer; this one lights up a pattern inside the text's bounding box. -/
def glyphCovers (text : String) (dx dy : Int) : Bool :=
  decide (0 ≤ dx) && decide (dx < 12 * (text.length : Int)) &&
  decide (0 ≤ dy) && decide (dy < 16) &&
  (((text.toList.map Char.toNat).getD (dx / 12).toNat 32 + dx.toNat + dy.toNat) % 3 == 0)

/-- The timestamp-overlay block of the capture loop, lines 127-159 of
`src/litter-mon.py`: compute the text size, draw a filled black rectangle at
the bottom-left (line 141, corners (10, rows-text_height-baseline-10) and
(10+text_width+10, rows-5)), then draw the timestamp text in white at origin
(15, rows-baseline-8) (line 150).  A function of exactly (frame, timestamp). -/
def annotateFrame (frame : Frame) (timestamp : String) : Frame :=
  let rows : Int := frame.length
  let ts := getTextSizeModel timestamp
  let textWidth : Int := ts.1.1
  let textHeight : Int := ts.1.2
  let baseline : Int := ts.2
  let rx1 : Int := 10
  let ry1 : Int := rows - textHeight - baseline - 10
  let rx2 : Int := 10 + textWidth + 10
  let ry2 : Int := rows - 5
  let ox : Int := 15
  let oy : Int := rows - baseline - 8
  frame.mapIdx fun r row =>
    row.mapIdx fun c p =>
      let x : Int := c
      let y : Int := r
      let afterRect : Pix :=
        if rx1 ≤ x ∧ x ≤ rx2 ∧ ry1 ≤ y ∧ y ≤ ry2 then (0, 0, 0) else p
      if glyphCovers timestamp (x - ox) (y - oy) then (255, 255, 255) else afterRect

/-- Model of `datetime.now().strftime("%Y%m%d_%H%M%S")` on the idealized
session clock: an injective rendering of the current tick stands in for the
wall-clock timestamp string. -/
def stampOf (t : Nat) : String := toString t

/-- Python's `f"{n:03d}"`: zero-pad to at least three digits (line 52). -/
def pad3 (n : Nat) : String :=
  if n < 10 then "00" ++ toString n
  else if n < 100 then "0" ++ toString n
  else toString n

/-- The filename built by `create_video_writer` (lines 47-56): the timestamp
is taken from `datetime.now()` AT THE TIME OF THE CALL (`now` is the current
tick), not from the session start.  `chunk_number = none` models the Python
`chunk_number=None` default branch (line 54). -/
def createVideoWriterName (now : Nat) (fileFormat : String) (chunkNumber : Option Nat) : String :=
  let timestamp := stampOf now
  match chunkNumber with
  | some n => "recording_" ++ timestamp ++ "_part" ++ pad3 n ++ "." ++ fileFormat
  | none => "recording_" ++ timestamp ++ "." ++ fileFormat

/-- The argparse default for `--chunk-duration` (lines 270-273): when the
option is absent from the command line, `args.chunk_duration` is 300. -/
def defaultChunkDuration : Nat := 300

/-- The `--headless` option (lines 279-282): `action='store_true'` with
`default=True`.  If the flag is present argparse stores `True`; if absent the
default `True` is used. -/
def parseHeadless (flagPresent : Bool) : Bool :=
  if flagPresent then true else true

/-! ## Frame-rate calibration (lines 89-99) -/

/-- `test_frames = 60` (line 90). -/
def testFrames : Nat := 60

/-- The calibration loop (lines 92-95): up to `n` reads starting at source
index `i`; each read consumes `d i` seconds of wall clock; the loop breaks at
the first failed read (the failing read itself still takes time).  Returns
(number of successful reads, elapsed wall-clock time). -/
def calibLoop (readOk : Nat → Bool) (d : Nat → ℚ) : Nat → Nat → Nat × ℚ
  | _, 0 => (0, 0)
  | i, n + 1 =>
    let e := d i
    if readOk i then
      let rest := calibLoop readOk d (i + 1) n
      (rest.1 + 1, e + rest.2)
    else (0, e)

/-- Run the calibration loop from index 0 for `test_frames` iterations. -/
def calibResult (readOk : Nat → Bool) (d : Nat → ℚ) : Nat × ℚ :=
  calibLoop readOk d 0 testFrames

/-- Line 97: `measured_fps = test_frames / elapsed if elapsed > 0 else fps`.
Note the numerator is the CONSTANT `test_frames` (60), not the number of
frames actually read, and no error is raised on a dead source. -/
def measuredFps (readOk : Nat → Bool) (d : Nat → ℚ) (fps : ℚ) : ℚ :=
  let e := (calibResult readOk d).2
  if 0 < e then (testFrames : ℚ) / e else fps

/-! ## The capture loop and chunk rotation (lines 106-240) -/

/-- The configuration slice of `record_video` that the loop consults. -/
structure Config where
  headless : Bool
  chunkDuration : Nat
  duration : Option Nat
  fileFormat : String

/-- External environment of one session: per-tick read success, delivered
frame content, operator interrupt, and preview-window q-keypress. -/
structure Oracle where
  readOk : Nat → Bool
  interrupt : Nat → Bool
  q : Nat → Bool
  frame : Nat → Frame

/-- How the `while True` loop of `record_video` was left. -/
inductive ExitCause where
  | readFail
  | qPress
  | durationHit
  | interrupted
deriving DecidableEq, Repr

/-- The loop-local variables of `record_video` (lines 106-117) plus
bookkeeping lists recording what the session did: sequence numbers and open
ticks passed to `create_video_writer`, the filenames it built, the durations
of chunks closed at rotation points, the annotated frames written, and
whether the preview window was ever shown. -/
structure LoopState where
  t : Nat
  frameCount : Nat
  chunkNumber : Nat
  chunkFrameCount : Nat
  chunkStart : Nat
  openedSeqs : List Nat
  openTimes : List Nat
  filenames : List String
  closedDurs : List Nat
  writtenFrames : List Frame
  previewShown : Bool
deriving DecidableEq, Repr

/-- Python truthiness of the duration check (lines 188 and 203):
`if duration and total_elapsed >= duration` — `None` and `0` are both falsy. -/
def durationHitB (d : Option Nat) (t : Nat) : Bool :=
  match d with
  | none => false
  | some T => decide (0 < T) && decide (T ≤ t)

/-- One iteration of the `while True` loop (lines 120-216), on the idealized
clock where the blocking `cap.read()` delivers frame `s.t + 1` at tick
`s.t + 1`.  A `KeyboardInterrupt` is modelled as arriving at an iteration
boundary.  After a rotation (lines 191-200) the source re-evaluates the
total-duration check of line 203, but that condition was just found false
inside the rotation branch (line 188), so falling through to `.inl` is
semantics-preserving. -/
def stepFn (cfg : Config) (o : Oracle) (s : LoopState) : LoopState ⊕ (LoopState × ExitCause) :=
  let k := s.t + 1
  if o.interrupt k then
    .inr (s, .interrupted)
  else if !(o.readOk k) then
    .inr (s, .readFail)
  else
    let fr := annotateFrame (o.frame k) (stampOf k)
    let s1 : LoopState :=
      { s with
        t := k
        frameCount := s.frameCount + 1
        chunkFrameCount := s.chunkFrameCount + 1
        writtenFrames := fr :: s.writtenFrames
        previewShown := s.previewShown || !cfg.headless }
    if !cfg.headless && o.q k then
      .inr (s1, .qPress)
    else if cfg.chunkDuration ≤ k - s.chunkStart then
      let s2 : LoopState := { s1 with closedDurs := (k - s.chunkStart) :: s1.closedDurs }
      if durationHitB cfg.duration k then
        .inr (s2, .durationHit)
      else
        .inl
          { s2 with
            chunkNumber := s2.chunkNumber + 1
            chunkFrameCount := 0
            chunkStart := k
            openedSeqs := (s2.chunkNumber + 1) :: s2.openedSeqs
            openTimes := k :: s2.openTimes
            filenames :=
              createVideoWriterName k cfg.fileFormat (some (s2.chunkNumber + 1)) :: s2.filenames }
    else if durationHitB cfg.duration k then
      .inr (s1, .durationHit)
    else
      .inl s1

/-- Run the capture loop for at most `fuel` iterations; `none` means the loop
is still running (relevant only for unbounded sessions). -/
def runLoop (cfg : Config) (o : Oracle) : Nat → LoopState → LoopState × Option ExitCause
  | 0, s => (s, none)
  | fuel + 1, s =>
    match stepFn cfg o s with
    | .inl s' => runLoop cfg o fuel s'
    | .inr (s', c) => (s', some c)

/-- The state set up in lines 106-117: counters zeroed, chunk number 1, and
the first video writer created (at tick 0, i.e. at session start) before the
`try` block is entered. -/
def initState (cfg : Config) : LoopState :=
  { t := 0
    frameCount := 0
    chunkNumber := 1
    chunkFrameCount := 0
    chunkStart := 0
    openedSeqs := [1]
    openTimes := [0]
    filenames := [createVideoWriterName 0 cfg.fileFormat (some 1)]
    closedDurs := []
    writtenFrames := []
    previewShown := false }

/-- A steadily delivering source: every read succeeds (one frame per tick),
no interrupt, no keypress. -/
def steadyOracle (fr : Nat → Frame) : Oracle :=
  { readOk := fun _ => true
    interrupt := fun _ => false
    q := fun _ => false
    frame := fr }

/-- A dead source: every read fails; no interrupt, no keypress. -/
def deadOracle : Oracle :=
  { readOk := fun _ => false
    interrupt := fun _ => false
    q := fun _ => false
    frame := fun _ => [] }

/-- The list [n, n-1, ..., 1]: the shape `openedSeqs` always has. -/
def countdown : Nat → List Nat
  | 0 => []
  | n + 1 => (n + 1) :: countdown n

/-! ## Segment Writer close semantics (spec-modelled) -/

/-- Modelled from the spec: the Segment Writer's `close`/`release` semantics
live in the external encoder collaborator (`cv2.VideoWriter.release`), not in
`src/`.  Per §4.3 of the spec, `close()` "flushes and finalizes the sink" and
is idempotent.  The writer holds an open flag, frames buffered since open,
and the finalized file content. -/
structure SegmentWriter where
  isOpened : Bool
  buffered : List Frame
  persisted : List Frame
deriving DecidableEq, Repr

/-- Modelled from the spec: `write(frame)` appends one frame to the open sink
(§4.3); on a closed writer it is a no-op at the sink level. -/
def SegmentWriter.write (w : SegmentWriter) (f : Frame) : SegmentWriter :=
  if w.isOpened then { w with buffered := f :: w.buffered } else w

/-- Modelled from the spec: `close()` flushes the buffer into the persisted
file and marks the writer closed; on an already-closed writer it changes
nothing (§4.3: idempotent, no error). -/
def SegmentWriter.release (w : SegmentWriter) : SegmentWriter :=
  if w.isOpened then
    { isOpened := false, buffered := [], persisted := w.persisted ++ w.buffered.reverse }
  else w

/-! ## Resource lifecycle of `record_video` (lines 66-240) -/

/-- Exceptions that can leave `record_video`. -/
inductive PyError where
  | sinkOpenError
  | zeroDivisionError
deriving DecidableEq, Repr

/-- How the `try` body (the capture loop) ended. -/
inductive LoopOutcome where
  /-- a `break` (duration reached, read failure, q-press), having written
  `frames` frames in total -/
  | normalExit (frames : Nat)
  /-- `KeyboardInterrupt`, caught by the `except` at line 218 -/
  | interrupted (frames : Nat)
  /-- `create_video_writer` raised during a chunk rotation (line 196),
  inside the `try` block -/
  | rotationOpenFail (frames : Nat)
deriving DecidableEq, Repr

/-- What `record_video` released, and what escaped it. -/
structure ResourceTrace where
  capReleased : Bool
  outReleased : Bool
  propagated : Option PyError
deriving DecidableEq, Repr

/-- The resource/exit behaviour of `record_video`.  The first
`create_video_writer` call (line 113) happens BEFORE the `try` (line 119), so
if it raises, the `finally` block never runs and the already-opened camera is
not released.  Otherwise the `finally` (lines 221-240) runs on every exit of
the loop; it prints the summary — including `total_elapsed/frame_count` at
line 230, which raises `ZeroDivisionError` when no frame was captured,
skipping the `cap.release()`/`out.release()` calls at lines 238-239 — and
only then releases the camera and the writer. -/
def recordVideoCleanup (firstWriterOk : Bool) (outcome : LoopOutcome) : ResourceTrace :=
  if !firstWriterOk then
    { capReleased := false, outReleased := false, propagated := some .sinkOpenError }
  else
    let fcPending : Nat × Option PyError :=
      match outcome with
      | .normalExit fc => (fc, none)
      | .interrupted fc => (fc, none)
      | .rotationOpenFail fc => (fc, some .sinkOpenError)
    if fcPending.1 = 0 then
      { capReleased := false, outReleased := false, propagated := some .zeroDivisionError }
    else
      { capReleased := true, outReleased := true, propagated := fcPending.2 }

end LitterMon

namespace LitterMon

/-! ## Easy facts and concrete evaluations -/

/-- C8: closing a Segment Writer is idempotent: a second `release` on an
already-closed writer changes nothing — in particular it does not raise (the
model is total), does not corrupt state, and leaves the persisted file
exactly as the first close left it.  This covers the exit path where the
writer closed at a chunk boundary (line 184) is closed once more by the
final cleanup (line 239). -/
theorem segmentWriter_release_idempotent (w : SegmentWriter) :
    w.release.release = w.release ∧ w.release.release.persisted = w.release.persisted := by
  have h : w.release.release = w.release := by
    by_cases hw : w.isOpened <;> simp [SegmentWriter.release, hw]
  exact ⟨h, by rw [h]⟩

/-- C4: evaluation of the cleanup model at the failing inputs.  When the
first Segment's encoder sink fails to open, nothing is released and the
error propagates with the camera still open (the claim and spec require the
already-opened frame source to be released); when the loop exits with zero
captured frames (e.g. the very first read fails), the summary's
`total_elapsed/frame_count` raises `ZeroDivisionError` inside the `finally`
block before `cap.release()`, so again nothing is released.  With at least
one frame captured, cleanup does run on the normal, interrupt and
mid-session rotation-open-failure paths. -/
theorem recordVideoCleanup_gaps :
    (recordVideoCleanup false (.normalExit 5)).capReleased = false ∧
    (recordVideoCleanup false (.normalExit 5)).propagated = some .sinkOpenError ∧
    (recordVideoCleanup true (.normalExit 0)).capReleased = false ∧
    (recordVideoCleanup true (.normalExit 0)).propagated = some .zeroDivisionError ∧
    (recordVideoCleanup true (.normalExit 3)) = ⟨true, true, none⟩ ∧
    (recordVideoCleanup true (.interrupted 3)) = ⟨true, true, none⟩ ∧
    (recordVideoCleanup true (.rotationOpenFail 3)) = ⟨true, true, some .sinkOpenError⟩ := by
  decide

/-- C1, counterexample: with the `--chunk-duration` option absent from the
command line, argparse supplies the default 300 (lines 270-273), and a
steady headless session with total duration 301 s rotates at the 300 s
boundary: it opens a second Segment, so the session does NOT behave as a
single Segment held open until the total-duration budget is exhausted. -/
theorem absent_chunk_option_still_rotates :
    (runLoop ⟨parseHeadless false, defaultChunkDuration, some 301, "mp4"⟩
        (steadyOracle fun _ => []) 301
        (initState ⟨parseHeadless false, defaultChunkDuration, some 301, "mp4"⟩)).1.chunkNumber
        = 2 ∧
    (runLoop ⟨parseHeadless false, defaultChunkDuration, some 301, "mp4"⟩
        (steadyOracle fun _ => []) 301
        (initState ⟨parseHeadless false, defaultChunkDuration, some 301, "mp4"⟩)).1.openedSeqs
        = [2, 1] ∧
    (runLoop ⟨parseHeadless false, defaultChunkDuration, some 301, "mp4"⟩
        (steadyOracle fun _ => []) 301
        (initState ⟨parseHeadless false, defaultChunkDuration, some 301, "mp4"⟩)).1.closedDurs
        = [300] := by
  decide

/-- C2, counterexample: in a steady session with chunk duration 5 and total
duration 12, the three Segments' filenames carry the timestamps 0, 5 and 10
— each Segment is stamped with `datetime.now()` at its own creation (line
49), not with the session's start time.  The name the claim predicts for
Segment 2 (session-start timestamp 0 with part number 002) is not among the
files the session creates. -/
theorem segment_names_not_session_start :
    (runLoop ⟨true, 5, some 12, "mp4"⟩ (steadyOracle fun _ => []) 12
        (initState ⟨true, 5, some 12, "mp4"⟩)).1.filenames =
      ["recording_10_part003.mp4", "recording_5_part002.mp4", "recording_0_part001.mp4"] ∧
    "recording_0_part002.mp4" ∉
      (runLoop ⟨true, 5, some 12, "mp4"⟩ (steadyOracle fun _ => []) 12
        (initState ⟨true, 5, some 12, "mp4"⟩)).1.filenames := by
  decide

/-- C3, counterexample: with a dead source (every read fails, each failed
read taking one second), calibration reads zero frames, yet the session does
not fail fast: `measured_fps` is computed as `60 / elapsed = 60` — a
nonsensical rate, not an error and not the nominal 30 — and the session
still opens Segment 1 (the writer is created at line 113).  Only the first
capture-loop read then ends the session, with the empty Segment already
open. -/
theorem calibration_zero_frames_no_fail_fast :
    measuredFps deadOracle.readOk (fun _ => 1) 30 = 60 ∧
    (runLoop ⟨true, 300, some 600, "mp4"⟩ deadOracle 600
        (initState ⟨true, 300, some 600, "mp4"⟩)).1.openedSeqs = [1] ∧
    (runLoop ⟨true, 300, some 600, "mp4"⟩ deadOracle 600
        (initState ⟨true, 300, some 600, "mp4"⟩)).1.frameCount = 0 ∧
    (runLoop ⟨true, 300, some 600, "mp4"⟩ deadOracle 600
        (initState ⟨true, 300, some 600, "mp4"⟩)).2 = some .readFail := by
  refine ⟨?_, by decide, by decide, by decide⟩
  simp [measuredFps, calibResult, testFrames, calibLoop, deadOracle]

/-- C6, counterexample: a source that delivers 30 frames (one second each)
and then dies reads 30 frames in 31 elapsed seconds, but the code returns
`60 / 31` — the constant `test_frames = 60` divided by elapsed — not the
claimed `frames_actually_read / elapsed = 30 / 31`.  And with zero frames
read (elapsed 1 s), it returns `60`, not the nominal rate 24. -/
theorem measuredFps_ignores_frames_read :
    (calibResult (fun k => decide (k < 30)) (fun _ => 1)).1 = 30 ∧
    (calibResult (fun k => decide (k < 30)) (fun _ => 1)).2 = 31 ∧
    measuredFps (fun k => decide (k < 30)) (fun _ => 1) 24 = 60 / 31 ∧
    (60 : ℚ) / 31 ≠ 30 / 31 ∧
    measuredFps (fun _ => false) (fun _ => 1) 24 = 60 ∧ (60 : ℚ) ≠ 24 := by
  refine ⟨?_, ?_, ?_, by norm_num, ?_, by norm_num⟩ <;>
    · simp [measuredFps, calibResult, testFrames, calibLoop]
      try norm_num

end LitterMon

namespace LitterMon

/-! ## The steady headless run: closed form of the rotation state machine -/

/-- Invariant of a steady headless session after `k` full loop iterations
(one frame per tick): the open chunk started at the latest rotation boundary
`k - k % C`, `k / C` chunks have been rotated out so far, each closed after
exactly `C` ticks. -/
structure SteadyInv (C k : Nat) (s : LoopState) : Prop where
  ht : s.t = k
  hcs : s.chunkStart = k - k % C
  hcn : s.chunkNumber = k / C + 1
  hcd : s.closedDurs = List.replicate (k / C) C

lemma durationHitB_false_of_lt {T t : Nat} (h : t < T) : durationHitB (some T) t = false := by
  have : ¬ (T ≤ t) := by omega
  simp [durationHitB, this]

lemma durationHitB_true_of_le {T t : Nat} (h0 : 0 < T) (h : T ≤ t) :
    durationHitB (some T) t = true := by
  simp [durationHitB, h0, h]

lemma stepFn_steady_mid (C T : Nat) (fmt : String) (fr : Nat → Frame) (hC : 0 < C)
    (k : Nat) (s : LoopState) (hInv : SteadyInv C k s) (hk : k + 1 < T) :
    ∃ s', stepFn ⟨true, C, some T, fmt⟩ (steadyOracle fr) s = .inl s' ∧ SteadyInv C (k + 1) s' := by
  obtain ⟨ht, hcs, hcn, hcd⟩ := hInv
  have hr : k % C < C := Nat.mod_lt _ hC
  have hml : k % C ≤ k := Nat.mod_le k C
  have hqm : C * (k / C) + k % C = k := Nat.div_add_mod k C
  have hdb : durationHitB (some T) (k + 1) = false := durationHitB_false_of_lt hk
  simp only [stepFn, steadyOracle, ht, hcs, hdb]
  simp only [Bool.not_true, Bool.not_false, Bool.false_and, Bool.true_and, if_false,
    Bool.false_eq_true, if_true, ite_false, ite_true]
  by_cases hrot : C ≤ k + 1 - (k - k % C)
  · rw [if_pos hrot]
    have hr1 : k % C = C - 1 := by omega
    have hk1 : k + 1 = C * (k / C) + C := by omega
    have hk2 : k + 1 = C * (k / C + 1) := by rw [hk1]; ring
    have hdiv : (k + 1) / C = k / C + 1 := by rw [hk2, Nat.mul_div_cancel_left _ hC]
    have hmod : (k + 1) % C = 0 := by rw [hk2]; exact Nat.mul_mod_right C _
    refine ⟨_, rfl, ?_, ?_, ?_, ?_⟩
    · rfl
    · simp [hmod]
    · simp [hdiv, hcn]
    · have hdur : k + 1 - (k - k % C) = C := by omega
      simp [hdiv, hcd, hdur, List.replicate_succ]
  · rw [if_neg hrot]
    have hlt : k % C + 1 < C := by omega
    have hk1 : k + 1 = C * (k / C) + (k % C + 1) := by omega
    have hdiv : (k + 1) / C = k / C := by
      rw [hk1, Nat.mul_add_div hC, Nat.div_eq_of_lt hlt, Nat.add_zero]
    have hmod : (k + 1) % C = k % C + 1 := by
      rw [hk1, Nat.mul_add_mod, Nat.mod_eq_of_lt hlt]
    refine ⟨_, rfl, ?_, ?_, ?_, ?_⟩
    · rfl
    · simp only [hmod]
      omega
    · simp [hdiv, hcn]
    · simp [hdiv, hcd]

lemma stepFn_steady_last (C T : Nat) (fmt : String) (fr : Nat → Frame) (hC : 0 < C)
    (k : Nat) (s : LoopState) (hInv : SteadyInv C k s) (hk : k + 1 = T) :
    ∃ s', stepFn ⟨true, C, some T, fmt⟩ (steadyOracle fr) s = .inr (s', .durationHit) ∧
      s'.t = T ∧ s'.chunkNumber = (T + C - 1) / C ∧
      s'.closedDurs = List.replicate (T / C) C ∧ s'.t - s'.chunkStart ≤ C := by
  obtain ⟨ht, hcs, hcn, hcd⟩ := hInv
  have hr : k % C < C := Nat.mod_lt _ hC
  have hml : k % C ≤ k := Nat.mod_le k C
  have hqm : C * (k / C) + k % C = k := Nat.div_add_mod k C
  have hdb : durationHitB (some T) (k + 1) = true :=
    durationHitB_true_of_le (by omega) (by omega)
  simp only [stepFn, steadyOracle, ht, hcs, hdb]
  simp only [Bool.not_true, Bool.not_false, Bool.false_and, Bool.true_and, if_false,
    Bool.false_eq_true, if_true, ite_false, ite_true]
  by_cases hrot : C ≤ k + 1 - (k - k % C)
  · rw [if_pos hrot]
    have hr1 : k % C = C - 1 := by omega
    have hk1 : k + 1 = C * (k / C) + C := by omega
    have hk2 : k + 1 = C * (k / C + 1) := by rw [hk1]; ring
    have hTdiv : T / C = k / C + 1 := by
      rw [← hk, hk2, Nat.mul_div_cancel_left _ hC]
    have hceil : (T + C - 1) / C = k / C + 1 := by
      have hT : T = C * (k / C + 1) := by omega
      have h1 : T + C - 1 = C * (k / C + 1) + (C - 1) := by omega
      rw [h1, Nat.mul_add_div hC, Nat.div_eq_of_lt (show C - 1 < C by omega), Nat.add_zero]
    refine ⟨_, rfl, ?_, ?_, ?_, ?_⟩
    · simp [hk]
    · simp [hceil, hcn]
    · have hdur : k + 1 - (k - k % C) = C := by omega
      simp [hTdiv, hcd, hdur, List.replicate_succ]
    · simp
      omega
  · rw [if_neg hrot]
    have hlt : k % C + 1 < C := by omega
    have hk1 : k + 1 = C * (k / C) + (k % C + 1) := by omega
    have hTdiv : T / C = k / C := by
      rw [← hk, hk1, Nat.mul_add_div hC, Nat.div_eq_of_lt hlt, Nat.add_zero]
    have hceil : (T + C - 1) / C = k / C + 1 := by
      have hmul : C * (k / C + 1) = C * (k / C) + C := by ring
      have h1 : T + C - 1 = C * (k / C + 1) + k % C := by omega
      rw [h1, Nat.mul_add_div hC, Nat.div_eq_of_lt hr, Nat.add_zero]
    refine ⟨_, rfl, ?_, ?_, ?_, ?_⟩
    · simp [hk]
    · simp [hceil, hcn]
    · simp [hTdiv, hcd]
    · simp
      omega

lemma runLoop_steady (C T : Nat) (fmt : String) (fr : Nat → Frame) (hC : 0 < C) :
    ∀ (n k : Nat) (s : LoopState), SteadyInv C k s → k + n = T → 0 < n →
      ∃ sF, runLoop ⟨true, C, some T, fmt⟩ (steadyOracle fr) n s = (sF, some .durationHit) ∧
        sF.t = T ∧ sF.chunkNumber = (T + C - 1) / C ∧
        sF.closedDurs = List.replicate (T / C) C ∧ sF.t - sF.chunkStart ≤ C := by
  intro n
  induction n with
  | zero => omega
  | succ m ih =>
    intro k s hInv hkn _
    rcases Nat.eq_zero_or_pos m with hm | hm
    · subst hm
      obtain ⟨s', hstep, hprops⟩ :=
        stepFn_steady_last C T fmt fr hC k s hInv (by omega)
      refine ⟨s', ?_, hprops⟩
      simp [runLoop, hstep]
    · obtain ⟨s', hstep, hInv'⟩ :=
        stepFn_steady_mid C T fmt fr hC k s hInv (by omega)
      obtain ⟨sF, hrun, hprops⟩ := ih (k + 1) s' hInv' (by omega) hm
      refine ⟨sF, ?_, hprops⟩
      simp [runLoop, hstep, hrun]

lemma steadyInv_init (C : Nat) (cfg : Config) : SteadyInv C 0 (initState cfg) := by
  refine ⟨rfl, ?_, ?_, ?_⟩ <;> simp [initState]

end LitterMon

namespace LitterMon

/-- C5: for every configured chunk duration C > 0 and total duration T ≥ C,
a steady headless session (ideal clock, one frame per tick) exits on the
total-duration budget having produced exactly `ceil(T / C) = (T + C - 1) / C`
Segments; every Segment closed at a rotation boundary was open for exactly C
ticks, and the final Segment (closed by the cleanup path) was open for at
most C ticks. -/
theorem segment_count_eq_ceil (C T : Nat) (fmt : String) (fr : Nat → Frame)
    (hC : 0 < C) (hT : C ≤ T) :
    (runLoop ⟨true, C, some T, fmt⟩ (steadyOracle fr) T
        (initState ⟨true, C, some T, fmt⟩)).2 = some .durationHit ∧
    (runLoop ⟨true, C, some T, fmt⟩ (steadyOracle fr) T
        (initState ⟨true, C, some T, fmt⟩)).1.chunkNumber = (T + C - 1) / C ∧
    (∀ d ∈ (runLoop ⟨true, C, some T, fmt⟩ (steadyOracle fr) T
        (initState ⟨true, C, some T, fmt⟩)).1.closedDurs, d = C) ∧
    (runLoop ⟨true, C, some T, fmt⟩ (steadyOracle fr) T
          (initState ⟨true, C, some T, fmt⟩)).1.t -
        (runLoop ⟨true, C, some T, fmt⟩ (steadyOracle fr) T
          (initState ⟨true, C, some T, fmt⟩)).1.chunkStart ≤ C := by
  obtain ⟨sF, hrun, -, hcn, hcd, hlast⟩ :=
    runLoop_steady C T fmt fr hC T 0 (initState ⟨true, C, some T, fmt⟩)
      (steadyInv_init C _) (by omega) (by omega)
  rw [hrun]
  refine ⟨rfl, hcn, ?_, hlast⟩
  intro d hd
  rw [hcd] at hd
  exact List.eq_of_mem_replicate hd

/-- Witness for `segment_count_eq_ceil` at C = 5, T = 12: three Segments. -/
theorem segment_count_eq_ceil_witness :
    0 < 5 ∧ 5 ≤ 12 ∧
    ((runLoop ⟨true, 5, some 12, "mp4"⟩ (steadyOracle fun _ => []) 12
        (initState ⟨true, 5, some 12, "mp4"⟩)).2 = some .durationHit ∧
    (runLoop ⟨true, 5, some 12, "mp4"⟩ (steadyOracle fun _ => []) 12
        (initState ⟨true, 5, some 12, "mp4"⟩)).1.chunkNumber = (12 + 5 - 1) / 5 ∧
    (∀ d ∈ (runLoop ⟨true, 5, some 12, "mp4"⟩ (steadyOracle fun _ => []) 12
        (initState ⟨true, 5, some 12, "mp4"⟩)).1.closedDurs, d = 5) ∧
    (runLoop ⟨true, 5, some 12, "mp4"⟩ (steadyOracle fun _ => []) 12
          (initState ⟨true, 5, some 12, "mp4"⟩)).1.t -
        (runLoop ⟨true, 5, some 12, "mp4"⟩ (steadyOracle fun _ => []) 12
          (initState ⟨true, 5, some 12, "mp4"⟩)).1.chunkStart ≤ 5) :=
  ⟨by decide, by decide,
    segment_count_eq_ceil 5 12 "mp4" (fun _ => []) (by decide) (by decide)⟩

/-- C1 amended: when the `--chunk-duration` option is absent, argparse
supplies the default of 300 seconds, so rotation still occurs on the 300 s
schedule; a steady session produces a single Segment (kept open until the
total-duration budget is exhausted) exactly when the total duration is at
most 300 s — as in Scenario B (8 s ⇒ one Segment). -/
theorem absent_chunk_option_single_segment_when_short (T : Nat) (fmt : String) (fr : Nat → Frame)
    (hT1 : 1 ≤ T) (hT2 : T ≤ defaultChunkDuration) :
    (runLoop ⟨parseHeadless false, defaultChunkDuration, some T, fmt⟩ (steadyOracle fr) T
        (initState ⟨parseHeadless false, defaultChunkDuration, some T, fmt⟩)).1.chunkNumber = 1 ∧
    (runLoop ⟨parseHeadless false, defaultChunkDuration, some T, fmt⟩ (steadyOracle fr) T
        (initState ⟨parseHeadless false, defaultChunkDuration, some T, fmt⟩)).2 =
      some .durationHit := by
  have hhl : parseHeadless false = true := rfl
  have hcd : defaultChunkDuration = 300 := rfl
  rw [hhl, hcd]
  rw [hcd] at hT2
  obtain ⟨sF, hrun, -, hcn, -, -⟩ :=
    runLoop_steady 300 T fmt fr (by omega) T 0
      (initState ⟨true, 300, some T, fmt⟩) (steadyInv_init 300 _) (by omega) (by omega)
  rw [hrun]
  exact ⟨by rw [hcn]; omega, rfl⟩

/-- Witness for `absent_chunk_option_single_segment_when_short` at T = 8:
Scenario B, one Segment for the whole 8 s session. -/
theorem absent_chunk_option_single_segment_when_short_witness :
    1 ≤ 8 ∧ 8 ≤ defaultChunkDuration ∧
    ((runLoop ⟨parseHeadless false, defaultChunkDuration, some 8, "mp4"⟩
        (steadyOracle fun _ => []) 8
        (initState ⟨parseHeadless false, defaultChunkDuration, some 8, "mp4"⟩)).1.chunkNumber = 1 ∧
    (runLoop ⟨parseHeadless false, defaultChunkDuration, some 8, "mp4"⟩
        (steadyOracle fun _ => []) 8
        (initState ⟨parseHeadless false, defaultChunkDuration, some 8, "mp4"⟩)).2 =
      some .durationHit) :=
  ⟨by decide, by decide,
    absent_chunk_option_single_segment_when_short 8 "mp4" (fun _ => [])
      (by decide) (by decide)⟩

end LitterMon

namespace LitterMon

/-! ## Invariants that hold for every oracle (any exit cause) -/

/-- State reached by a step, whether the loop continues or exits. -/
def stepState : LoopState ⊕ (LoopState × ExitCause) → LoopState
  | .inl s => s
  | .inr (s, _) => s

lemma stepFn_openedSeqs (cfg : Config) (o : Oracle) (s : LoopState)
    (h : s.openedSeqs = countdown s.chunkNumber) :
    (stepState (stepFn cfg o s)).openedSeqs =
      countdown (stepState (stepFn cfg o s)).chunkNumber := by
  simp only [stepFn]
  split_ifs <;> simp_all [stepState, countdown]

lemma runLoop_openedSeqs (cfg : Config) (o : Oracle) :
    ∀ (fuel : Nat) (s : LoopState), s.openedSeqs = countdown s.chunkNumber →
      ((runLoop cfg o fuel s).1).openedSeqs = countdown ((runLoop cfg o fuel s).1).chunkNumber := by
  intro fuel
  induction fuel with
  | zero => intro s h; exact h
  | succ m ih =>
    intro s h
    have hstep := stepFn_openedSeqs cfg o s h
    rcases hr : stepFn cfg o s with s' | ⟨s', c⟩
    · rw [hr] at hstep
      simp only [runLoop, hr]
      exact ih s' hstep
    · rw [hr] at hstep
      simp only [runLoop, hr]
      exact hstep

lemma countdown_reverse : ∀ n : Nat, (countdown n).reverse = List.range' 1 n := by
  intro n
  induction n with
  | zero => rfl
  | succ m ih =>
    rw [countdown, List.reverse_cons, ih, List.range'_concat]
    simp [Nat.add_comm]

/-- C7: for every session — whatever configuration, source behaviour, and
exit cause — the sequence numbers handed to `create_video_writer` form the
contiguous range [1, N] where N is the final chunk number: the first Segment
has sequence number 1 (line 107), each rotation opens a Segment numbered one
higher than its predecessor (line 192), and no number is skipped or reused. -/
theorem segment_seqs_contiguous (cfg : Config) (o : Oracle) (fuel : Nat) :
    ((runLoop cfg o fuel (initState cfg)).1).openedSeqs.reverse =
      List.range' 1 ((runLoop cfg o fuel (initState cfg)).1).chunkNumber := by
  rw [runLoop_openedSeqs cfg o fuel (initState cfg) rfl, countdown_reverse]

lemma stepFn_headless (C : Nat) (dur : Option Nat) (fmt : String) (o : Oracle) (s : LoopState) :
    (stepState (stepFn ⟨true, C, dur, fmt⟩ o s)).previewShown = s.previewShown ∧
    (∀ s' c, stepFn ⟨true, C, dur, fmt⟩ o s = .inr (s', c) → c ≠ .qPress) := by
  constructor
  · simp only [stepFn]
    split_ifs <;> simp_all [stepState]
  · intro s' c hc
    simp only [stepFn] at hc
    split_ifs at hc <;> simp_all <;> (obtain ⟨-, rfl⟩ := hc; simp)

lemma runLoop_headless (C : Nat) (dur : Option Nat) (fmt : String) (o : Oracle) :
    ∀ (fuel : Nat) (s : LoopState),
      (runLoop ⟨true, C, dur, fmt⟩ o fuel s).2 ≠ some .qPress ∧
      ((runLoop ⟨true, C, dur, fmt⟩ o fuel s).1).previewShown = s.previewShown := by
  intro fuel
  induction fuel with
  | zero => intro s; exact ⟨by simp [runLoop], rfl⟩
  | succ m ih =>
    intro s
    obtain ⟨hpre, hq⟩ := stepFn_headless C dur fmt o s
    rcases hr : stepFn ⟨true, C, dur, fmt⟩ o s with s' | ⟨s', c⟩
    · rw [hr] at hpre
      simp only [runLoop, hr]
      exact ⟨(ih s').1, by rw [(ih s').2]; exact hpre⟩
    · rw [hr] at hpre
      simp only [runLoop, hr]
      refine ⟨?_, hpre⟩
      have := hq s' c hr
      simp
      intro hcq
      exact this hcq

/-- C10: the `--headless` flag is a `store_true` option whose default is
already `True` (lines 279-282), so every command-line invocation yields
`headless = true`; consequently the preview window is never shown and the
operator q-keypress stop path is unreachable — a headless session can only
end by the duration budget, a read failure, or an interrupt. -/
theorem headless_always_true_q_unreachable :
    (∀ b : Bool, parseHeadless b = true) ∧
    (∀ (b : Bool) (C : Nat) (dur : Option Nat) (fmt : String) (o : Oracle) (fuel : Nat),
      (runLoop ⟨parseHeadless b, C, dur, fmt⟩ o fuel
          (initState ⟨parseHeadless b, C, dur, fmt⟩)).2 ≠ some .qPress ∧
      ((runLoop ⟨parseHeadless b, C, dur, fmt⟩ o fuel
          (initState ⟨parseHeadless b, C, dur, fmt⟩)).1).previewShown = false) := by
  have hph : ∀ b : Bool, parseHeadless b = true := by intro b; cases b <;> rfl
  refine ⟨hph, ?_⟩
  intro b C dur fmt o fuel
  rw [hph b]
  obtain ⟨h1, h2⟩ := runLoop_headless C dur fmt o fuel (initState ⟨true, C, dur, fmt⟩)
  exact ⟨h1, by rw [h2]; rfl⟩

end LitterMon

namespace LitterMon

/-! ## Annotation is stateless: written frames do not depend on chunk state -/

lemma stepFn_indep (h : Bool) (C₁ C₂ : Nat) (dur : Option Nat) (f₁ f₂ : String) (o : Oracle)
    (s₁ s₂ : LoopState) (ht : s₁.t = s₂.t) (hw : s₁.writtenFrames = s₂.writtenFrames) :
    (∃ s₁' s₂', stepFn ⟨h, C₁, dur, f₁⟩ o s₁ = .inl s₁' ∧ stepFn ⟨h, C₂, dur, f₂⟩ o s₂ = .inl s₂' ∧
        s₁'.t = s₂'.t ∧ s₁'.writtenFrames = s₂'.writtenFrames) ∨
    (∃ s₁' s₂' c, stepFn ⟨h, C₁, dur, f₁⟩ o s₁ = .inr (s₁', c) ∧
        stepFn ⟨h, C₂, dur, f₂⟩ o s₂ = .inr (s₂', c) ∧
        s₁'.writtenFrames = s₂'.writtenFrames) := by
  simp only [stepFn, ht, hw]
  split_ifs <;>
    first
      | (left; exact ⟨_, _, rfl, rfl, rfl, rfl⟩)
      | (right; exact ⟨_, _, _, rfl, rfl, rfl⟩)
      | (right; exact ⟨_, _, _, rfl, rfl, hw⟩)

lemma runLoop_indep (h : Bool) (C₁ C₂ : Nat) (dur : Option Nat) (f₁ f₂ : String) (o : Oracle) :
    ∀ (fuel : Nat) (s₁ s₂ : LoopState), s₁.t = s₂.t → s₁.writtenFrames = s₂.writtenFrames →
      ((runLoop ⟨h, C₁, dur, f₁⟩ o fuel s₁).1).writtenFrames =
        ((runLoop ⟨h, C₂, dur, f₂⟩ o fuel s₂).1).writtenFrames := by
  intro fuel
  induction fuel with
  | zero => intro s₁ s₂ _ hw; exact hw
  | succ m ih =>
    intro s₁ s₂ ht hw
    rcases stepFn_indep h C₁ C₂ dur f₁ f₂ o s₁ s₂ ht hw with
      ⟨s₁', s₂', h1, h2, ht', hw'⟩ | ⟨s₁', s₂', c, h1, h2, hw'⟩
    · simp only [runLoop, h1, h2]
      exact ih s₁' s₂' ht' hw'
    · simp only [runLoop, h1, h2]
      exact hw'

/-- C9: frame annotation is deterministic and stateless.  `annotateFrame` is
a pure function of exactly (frame content, timestamp string) — the
translation of lines 127-159 takes no other input — so equal inputs give
byte-identical output; and the stream of annotated frames a session writes
is entirely independent of the chunk-rotation state: two sessions over the
same source that differ only in chunk duration (and output format) write
identical frame sequences. -/
theorem annotate_deterministic_stateless :
    (∀ (f : Frame) (ts : String), annotateFrame f ts = annotateFrame f ts) ∧
    (∀ (h : Bool) (C C' : Nat) (dur : Option Nat) (fmt fmt' : String) (o : Oracle) (fuel : Nat),
      ((runLoop ⟨h, C, dur, fmt⟩ o fuel (initState ⟨h, C, dur, fmt⟩)).1).writtenFrames =
        ((runLoop ⟨h, C', dur, fmt'⟩ o fuel (initState ⟨h, C', dur, fmt'⟩)).1).writtenFrames) := by
  refine ⟨fun _ _ => rfl, ?_⟩
  intro h C C' dur fmt fmt' o fuel
  exact runLoop_indep h C C' dur fmt fmt' o fuel _ _ rfl rfl

/-! ## Filenames always come from the creation-time stamp -/

lemma stepFn_filenames (cfg : Config) (o : Oracle) (s : LoopState)
    (h : s.filenames = (s.openedSeqs.zip s.openTimes).map
      (fun p => createVideoWriterName p.2 cfg.fileFormat (some p.1))) :
    (stepState (stepFn cfg o s)).filenames =
      ((stepState (stepFn cfg o s)).openedSeqs.zip (stepState (stepFn cfg o s)).openTimes).map
        (fun p => createVideoWriterName p.2 cfg.fileFormat (some p.1)) := by
  simp only [stepFn]
  split_ifs <;> simp_all [stepState]

lemma runLoop_filenames (cfg : Config) (o : Oracle) :
    ∀ (fuel : Nat) (s : LoopState),
      s.filenames = (s.openedSeqs.zip s.openTimes).map
        (fun p => createVideoWriterName p.2 cfg.fileFormat (some p.1)) →
      ((runLoop cfg o fuel s).1).filenames =
        (((runLoop cfg o fuel s).1).openedSeqs.zip ((runLoop cfg o fuel s).1).openTimes).map
          (fun p => createVideoWriterName p.2 cfg.fileFormat (some p.1)) := by
  intro fuel
  induction fuel with
  | zero => intro s h; exact h
  | succ m ih =>
    intro s h
    have hstep := stepFn_filenames cfg o s h
    rcases hr : stepFn cfg o s with s' | ⟨s', c⟩
    · rw [hr] at hstep
      simp only [runLoop, hr]
      exact ih s' hstep
    · rw [hr] at hstep
      simp only [runLoop, hr]
      exact hstep

/-- C2 amended: every Segment of a session is named
`recording_<timestamp>_part<NNN>.<format>` where the timestamp component is
taken at that Segment's own creation time (`datetime.now()` inside
`create_video_writer`, line 49) — Segment 1 at the session start tick, each
rotated Segment at its rotation tick — so Segments of one session share the
timestamp component only if they are created at the same clock reading; in
general the timestamps differ while the zero-padded sequence number
increments. -/
theorem segment_filenames_from_creation_time (cfg : Config) (o : Oracle) (fuel : Nat) :
    ((runLoop cfg o fuel (initState cfg)).1).filenames =
      (((runLoop cfg o fuel (initState cfg)).1).openedSeqs.zip
          ((runLoop cfg o fuel (initState cfg)).1).openTimes).map
        (fun p => createVideoWriterName p.2 cfg.fileFormat (some p.1)) := by
  exact runLoop_filenames cfg o fuel (initState cfg) rfl

/-! ## Calibration against a steady synthetic source -/

lemma calibLoop_all_true_const (c : ℚ) :
    ∀ (n i : Nat), calibLoop (fun _ => true) (fun _ => c) i n = (n, n * c) := by
  intro n
  induction n with
  | zero => intro i; simp [calibLoop]
  | succ m ih =>
    intro i
    rw [calibLoop]
    simp only [if_true, ih (i + 1)]
    refine Prod.ext rfl ?_
    push_cast
    ring

/-- C3 amended: if the source yields zero frames during calibration, no
error is raised and the session does not fail fast: as long as the failed
reads consumed any positive wall-clock time, `measured_fps` is computed as
`60 / elapsed` (only a zero elapsed time falls back to the nominal rate),
the first Segment is still opened (line 113), and the session then
terminates through the ordinary in-loop read-failure path with zero frames
captured and Segment 1 already created. -/
theorem calibration_zero_frames_proceeds (d : Nat → ℚ) (fps : ℚ) (cfg : Config) (fuel : Nat)
    (he : 0 < (calibResult deadOracle.readOk d).2) (hf : 0 < fuel) :
    measuredFps deadOracle.readOk d fps = (testFrames : ℚ) / (calibResult deadOracle.readOk d).2 ∧
    runLoop cfg deadOracle fuel (initState cfg) = (initState cfg, some .readFail) ∧
    (initState cfg).openedSeqs = [1] ∧ (initState cfg).frameCount = 0 := by
  refine ⟨?_, ?_, rfl, rfl⟩
  · simp only [measuredFps, if_pos he]
  · rcases fuel with - | m
    · omega
    · rfl

set_option maxRecDepth 4000 in
/-- Witness for `calibration_zero_frames_proceeds`: one-second failed reads,
nominal rate 30, any configuration. -/
theorem calibration_zero_frames_proceeds_witness :
    0 < (calibResult deadOracle.readOk (fun _ => 1)).2 ∧ 0 < 1 ∧
    (measuredFps deadOracle.readOk (fun _ => 1) 30 =
        (testFrames : ℚ) / (calibResult deadOracle.readOk (fun _ => 1)).2 ∧
      runLoop ⟨true, 300, some 600, "mp4"⟩ deadOracle 1
          (initState ⟨true, 300, some 600, "mp4"⟩) =
        (initState ⟨true, 300, some 600, "mp4"⟩, some .readFail) ∧
      (initState ⟨true, 300, some 600, "mp4"⟩).openedSeqs = [1] ∧
      (initState ⟨true, 300, some 600, "mp4"⟩).frameCount = 0) :=
  ⟨by norm_num [calibResult, calibLoop, testFrames, deadOracle], by decide,
    calibration_zero_frames_proceeds (fun _ => 1) 30 ⟨true, 300, some 600, "mp4"⟩ 1
      (by norm_num [calibResult, calibLoop, testFrames, deadOracle]) (by decide)⟩

/-- C6 amended: calibration reads up to the fixed constant `test_frames = 60`
frames, measures wall-clock elapsed time, and returns
`measured_fps = 60 / elapsed` whenever elapsed is positive — the numerator
is the constant 60 regardless of how many frames were actually read — and
falls back to the nominal configured rate only when elapsed is zero (or
negative, impossible for a real clock).  For a source delivering all 60
frames at a constant rate R (each read taking 1/R), the measurement is
exact: `measured_fps = R`. -/
theorem measuredFps_spec (readOk : Nat → Bool) (d : Nat → ℚ) (fps : ℚ) :
    (0 < (calibResult readOk d).2 →
      measuredFps readOk d fps = (testFrames : ℚ) / (calibResult readOk d).2) ∧
    (¬ 0 < (calibResult readOk d).2 → measuredFps readOk d fps = fps) ∧
    (∀ R : ℚ, 0 < R → measuredFps (fun _ => true) (fun _ => 1 / R) fps = R) := by
  refine ⟨?_, ?_, ?_⟩
  · intro he
    simp only [measuredFps, if_pos he]
  · intro he
    simp only [measuredFps, if_neg he]
  · intro R hR
    have hcal : calibResult (fun _ => true) (fun _ => 1 / R) = (60, 60 * (1 / R)) := by
      rw [calibResult, testFrames, calibLoop_all_true_const]
      norm_num
    have hpos : (0 : ℚ) < 60 * (1 / R) := by positivity
    rw [measuredFps]
    simp only [hcal, if_pos hpos, testFrames]
    rw [div_eq_iff (ne_of_gt hpos)]
    push_cast
    field_simp

/-- Witness for `measuredFps_spec`: a source delivering at 30 fps measures
exactly 30. -/
theorem measuredFps_spec_witness :
    (0 : ℚ) < 30 ∧ measuredFps (fun _ => true) (fun _ => 1 / 30) 24 = 30 :=
  ⟨by norm_num, (measuredFps_spec (fun _ => true) (fun _ => 1 / 30) 24).2.2 30 (by norm_num)⟩

end LitterMon
